import Mathlib

/-!
Verification of the Frame-Accessibility-Audit plugin's cache/invalidation
engine, shallowly embedded from the repository sources:

* `code.ts` — fingerprint generation (`generateContentHash`,
  `collectTextContent`, `collectColors`, `simpleHash`), the two-tier local
  cache (`getCachedAnalysis`, `setCachedAnalysis`, `isCacheValid`,
  `clearFrameCache`), the `analyze` message handler, the background-color
  lookup (`getBackgroundColor`) and issue grouping
  (`groupIssuesByElement`).
* `supabase-client.ts` and the SQL migration — the remote history
  operations (`detect_frame_change`, `resolve_frame_changes`, the
  append-only `frame_analyses` insert).

Figma scene trees are modelled as a rose tree of text leaves and generic
container/shape nodes; JavaScript strings as `List Char` (with explicit
UTF-16 code-unit expansion where the source iterates `charCodeAt`);
JavaScript 32-bit integer coercion (`hash & hash`, `<<`) as explicit
wrap-around on `ℤ`; `JSON.stringify` of the fingerprint object as an
explicit canonical serializer with JSON string escaping.  Stateful parts
(the tier-1 `Map`, per-node plugin data, the remote tables) are explicit
state passed through the functions that the source mutates.
-/

set_option maxRecDepth 100000

namespace A11y

/-! ### Association-list helpers

The tier-1 cache is a JS `Map`, per-frame plugin data a per-node slot, and
the grouped-issues object a JS object with string keys; all three preserve
insertion order, which these helpers model. -/

/-- Lookup in an insertion-ordered association list (JS `Map.get` /
object property read). -/
def lookupAssoc {α : Type} : List (String × α) → String → Option α
  | [], _ => none
  | (k', v) :: rest, k => if k' = k then some v else lookupAssoc rest k

/-- Replace-or-append in an insertion-ordered association list
(JS `Map.set` / object property write: existing keys keep their position,
new keys are appended). -/
def setAssoc {α : Type} : List (String × α) → String → α → List (String × α)
  | [], k, v => [(k, v)]
  | (k', v') :: rest, k, v =>
    if k' = k then (k, v) :: rest else (k', v') :: setAssoc rest k v

/-- Delete from an association list (JS `Map.delete`). -/
def removeAssoc {α : Type} : List (String × α) → String → List (String × α)
  | [], _ => []
  | (k', v') :: rest, k =>
    if k' = k then removeAssoc rest k else (k', v') :: removeAssoc rest k

/-- Append a value to the bucket of a key, creating the bucket at the end
if absent: models `grouped[key] = grouped[key] ?? []; grouped[key].push(v)`
on a JS object. -/
def pushAssoc {α : Type} : List (String × List α) → String → α → List (String × List α)
  | [], k, v => [(k, [v])]
  | (k', vs) :: rest, k, v =>
    if k' = k then (k', vs ++ [v]) :: rest else (k', vs) :: pushAssoc rest k v

/-! ### Decimal / base-36 / hex digit rendering (JS number formatting) -/

/-- Decimal digit character. -/
def digitChar (n : Nat) : Char := Char.ofNat (48 + n)

/-- Digit character for `Number.prototype.toString(36)` (0-9 then a-z). -/
def base36DigitChar (n : Nat) : Char :=
  if n < 10 then Char.ofNat (48 + n) else Char.ofNat (87 + n)

/-- Lowercase hex digit, as produced by `JSON.stringify` unicode escapes. -/
def hexDigitChar (n : Nat) : Char :=
  if n < 10 then Char.ofNat (48 + n) else Char.ofNat (87 + n)

/-- Numeric value of a lowercase hex digit character. -/
def hexVal (c : Char) : Nat :=
  if c.toNat ≥ 97 then c.toNat - 87 else c.toNat - 48

/-- Decimal digits of a natural, most significant first, accumulated onto
`acc`; structural on a fuel that bounds the digit count so that the
definition reduces in the kernel. -/
def natDecAux : Nat → Nat → List Char → List Char
  | 0, _, acc => acc
  | _ + 1, 0, acc => acc
  | fuel + 1, n, acc => natDecAux fuel (n / 10) (digitChar (n % 10) :: acc)

/-- Decimal rendering of a natural number (JS integer-valued number
`toString`). -/
def natDec (n : Nat) : List Char := if n = 0 then ['0'] else natDecAux n n []

/-- Base-36 digits of a natural, most significant first. -/
def natBase36Aux : Nat → Nat → List Char → List Char
  | 0, _, acc => acc
  | _ + 1, 0, acc => acc
  | fuel + 1, n, acc => natBase36Aux fuel (n / 36) (base36DigitChar (n % 36) :: acc)

/-- `Number.prototype.toString(36)` of a nonnegative integer
(as used on `Math.abs(hash)`). -/
def natToBase36 (n : Nat) : List Char := if n = 0 then ['0'] else natBase36Aux n n []

/-- Fractional decimal digits of `r / den` (first `fuel` places, stopping
at a zero remainder). -/
def fracDigits : Nat → Nat → Nat → List Char
  | _, _, 0 => []
  | r, den, fuel + 1 =>
    if r = 0 then []
    else digitChar (r * 10 / den) :: fracDigits (r * 10 % den) den fuel

/-- Models JavaScript number-to-string on the nonnegative rational color
components the plugin reads from Figma (Figma color channels are in
`[0, 1]`); exact on terminating decimals of up to 20 places, which covers
JS shortest-round-trip output for such values. -/
def jsNum (q : ℚ) : List Char :=
  if q.den = 1 then natDec q.num.natAbs
  else natDec (q.num.natAbs / q.den) ++ '.' :: fracDigits (q.num.natAbs % q.den) q.den 20

/-! ### Scene-node model

A Figma scene subtree: `text` models `TEXT` nodes (leaves, carrying
`characters` and `fills`); `node` models every other `SceneNode` kind, with
`fills = none` for node kinds without a `fills` property (the source guards
property access with `'fills' in n` / `'children' in n`, and `TEXT` nodes
have no `children` property). -/

/-- An entry of a `fills` array: a solid paint with an RGB color, or any
non-`SOLID` paint (gradient, image, …), whose further data the source never
reads in the embedded functions. -/
inductive Paint where
  | solid (r g b : ℚ)
  | nonSolid
deriving DecidableEq, Repr

/-- An RGB color as read from `fill.color`. -/
structure RGB where
  r : ℚ
  g : ℚ
  b : ℚ
deriving DecidableEq, Repr

inductive SceneNode where
  | text (id name characters : String) (fills : List Paint)
  | node (id name : String) (fills : Option (List Paint)) (children : List SceneNode)

/-- The `id` property of a node. -/
def SceneNode.nodeId : SceneNode → String
  | .text i _ _ _ => i
  | .node i _ _ _ => i

/-- The `children` array (`TEXT` nodes have none). -/
def SceneNode.childrenList : SceneNode → List SceneNode
  | .text _ _ _ _ => []
  | .node _ _ _ cs => cs

mutual

/-- `collectTextContent` from `code.ts`: depth-first walk pushing each
`TEXT` node's `characters`. -/
def collectTextContent : SceneNode → List String
  | .text _ _ ch _ => [ch]
  | .node _ _ _ children => collectTextContentList children

def collectTextContentList : List SceneNode → List String
  | [] => []
  | c :: cs => collectTextContent c ++ collectTextContentList cs

end

mutual

/-- `collectColors` from `code.ts`: depth-first walk pushing, for each
`TEXT` node, the string `` `${r},${g},${b}` `` for every `SOLID` entry of
its `fills` array. -/
def collectColors : SceneNode → List (List Char)
  | .text _ _ _ fills =>
    fills.foldr
      (fun f acc =>
        match f with
        | .solid r g b => (jsNum r ++ ',' :: jsNum g ++ ',' :: jsNum b) :: acc
        | .nonSolid => acc)
      []
  | .node _ _ _ children => collectColorsList children

def collectColorsList : List SceneNode → List (List Char)
  | [] => []
  | c :: cs => collectColors c ++ collectColorsList cs

end

mutual

/-- `countElements` from `code.ts`: the node itself plus all descendants. -/
def countElements : SceneNode → Nat
  | .text _ _ _ _ => 1
  | .node _ _ _ children => 1 + countElementsList children

def countElementsList : List SceneNode → Nat
  | [] => 0
  | c :: cs => countElements c + countElementsList cs

end

/-- Total descendant count of a node's full subtree (descendants proper,
excluding the node itself) — the quantity §4.1 of the spec names. -/
def descendantCount (n : SceneNode) : Nat := countElements n - 1

/-! ### JSON serialization of the fingerprint object -/

/-- `JSON.stringify` escaping of one character of a string value: `"`,
`\`, the five short control escapes, `\u00XX` for remaining control
characters, and every other character verbatim. -/
def escChar (c : Char) : List Char :=
  if c = '"' then ['\\', '"']
  else if c = '\\' then ['\\', '\\']
  else if c = '\x08' then ['\\', 'b']
  else if c = '\t' then ['\\', 't']
  else if c = '\n' then ['\\', 'n']
  else if c = '\x0c' then ['\\', 'f']
  else if c = '\r' then ['\\', 'r']
  else if c.toNat < 32 then
    ['\\', 'u', '0', '0', hexDigitChar (c.toNat / 16), hexDigitChar (c.toNat % 16)]
  else [c]

/-- JSON escaping of a whole string body. -/
def escAll : List Char → List Char
  | [] => []
  | c :: cs => escChar c ++ escAll cs

/-- A JSON string literal: `"` body `"`. -/
def encStrLit (s : List Char) : List Char := '"' :: escAll s ++ ['"']

/-- Comma-separated join of already-rendered JSON values. -/
def commaJoin : List (List Char) → List Char
  | [] => []
  | [x] => x
  | x :: y :: rest => x ++ ',' :: commaJoin (y :: rest)

/-- A JSON array of strings, as `JSON.stringify` renders it. -/
def encStrArr (l : List (List Char)) : List Char :=
  '[' :: commaJoin (l.map encStrLit) ++ [']']

/-- The exact string `JSON.stringify(fingerprint)` produces in
`generateContentHash`: the object literal
`\x7b childCount, texts, colors \x7d` with properties in insertion order
and no whitespace.  Note the source takes `frame.children.length` — the
immediate child count — for `childCount`. -/
def fingerprintInput (n : SceneNode) : List Char :=
  "\x7b\"childCount\":".data ++ natDec n.childrenList.length
    ++ ",\"texts\":".data ++ encStrArr ((collectTextContent n).map String.data)
    ++ ",\"colors\":".data ++ encStrArr (collectColors n)
    ++ "\x7d".data

/-! ### The rolling hash (`simpleHash`) -/

/-- UTF-16 code units of a character — `charCodeAt` iterates code units,
so astral characters contribute a surrogate pair. -/
def utf16Units (c : Char) : List Nat :=
  if c.toNat < 65536 then [c.toNat]
  else [55296 + (c.toNat - 65536) / 1024, 56320 + (c.toNat - 65536) % 1024]

/-- UTF-16 code-unit sequence of a string. -/
def utf16Codes : List Char → List Nat
  | [] => []
  | c :: cs => utf16Units c ++ utf16Codes cs

/-- JavaScript 32-bit signed integer coercion (the effect of `| 0`, `<< `,
and `hash & hash`). -/
def toInt32 (n : ℤ) : ℤ := (n + 2147483648) % 4294967296 - 2147483648

/-- One iteration of the `simpleHash` loop:
`hash = ((hash << 5) - hash) + char; hash = hash & hash`.
`hash << 5` coerces to int32 first; the subtraction and addition are exact
in doubles at these magnitudes; the `&` coerces the sum back to int32. -/
def hashStep (h : ℤ) (c : Nat) : ℤ := toInt32 (toInt32 (h * 32) - h + c)

/-- The integer value of `hash` after the `simpleHash` loop. -/
def simpleHashInt (s : List Char) : ℤ := (utf16Codes s).foldl hashStep 0

/-- `simpleHash` from `code.ts`: rolling int32 hash, absolute value,
base-36. -/
def simpleHash (s : List Char) : List Char := natToBase36 (simpleHashInt s).natAbs

/-- `generateContentHash` from `code.ts`:
`simpleHash(JSON.stringify({ childCount, texts, colors }))`. -/
def generateContentHash (n : SceneNode) : String := ⟨simpleHash (fingerprintInput n)⟩

/-! ### Issues and grouping -/

/-- Issue severity. -/
inductive Severity where
  | fail
  | warning
deriving DecidableEq, Repr

/-- WCAG compliance level. -/
inductive WcagLevel where
  | AA
  | AAA
deriving DecidableEq, Repr

/-- An `AccessibilityIssue` record (`suggestedFix` and `bounds` carry no
weight in any embedded function and are omitted; `suggestion`,
`currentValue`, `requiredValue` are kept as display strings). -/
structure AccessibilityIssue where
  elementId : String
  elementName : String
  issueType : String
  severity : Severity
  wcagLevel : WcagLevel
  currentValue : String
  requiredValue : String
  suggestion : String
deriving DecidableEq, Repr

/-- The grouping key `` `${issue.elementName}_${issue.elementId}` ``. -/
def groupKey (i : AccessibilityIssue) : String :=
  i.elementName ++ "_" ++ i.elementId

/-- One element of `groupIssuesByElement`'s result; each member carries the
`index` field the source spreads onto the copied issue. -/
structure IssueGroup where
  elementName : String
  elementId : String
  issues : List (AccessibilityIssue × Nat)
deriving DecidableEq, Repr

/-- The insertion-ordered bucket object `grouped` built by
`groupIssuesByElement`'s `forEach`: each issue, paired with its input
index, is pushed onto the bucket of its `groupKey`. -/
def buildGrouped (issues : List AccessibilityIssue) :
    List (String × List (AccessibilityIssue × Nat)) :=
  issues.enum.foldl (fun m p => pushAssoc m (groupKey p.2) (p.2, p.1)) []

/-- The `Object.entries(grouped).map(...)` step: report a bucket under its
first member's `elementName`/`elementId`.  A bucket is never empty, so the
empty-bucket branch is an arbitrary totalization of `issues[0]`. -/
def mkGroup (kvs : String × List (AccessibilityIssue × Nat)) : IssueGroup :=
  match kvs.2 with
  | [] => ⟨"", "", []⟩
  | v :: _ => ⟨v.1.elementName, v.1.elementId, kvs.2⟩

/-- `groupIssuesByElement` from `code.ts`: bucket the issues by
`` `${elementName}_${elementId}` `` in an insertion-ordered object, then
report each bucket under its first member's `elementName`/`elementId`. -/
def groupIssuesByElement (issues : List AccessibilityIssue) : List IssueGroup :=
  (buildGrouped issues).map mkGroup

/-! ### The two-tier local cache -/

/-- `PLUGIN_VERSION` from `code.ts`. -/
def PLUGIN_VERSION : String := "1.0.0"

/-- `CACHE_DURATION` from `code.ts`: 7 days in milliseconds. -/
def CACHE_DURATION : ℤ := 7 * 24 * 60 * 60 * 1000

/-- A `CachedAnalysis` entry. -/
structure CachedAnalysis where
  timestamp : ℤ
  version : String
  contentHash : String
  results : List AccessibilityIssue
deriving DecidableEq, Repr

/-- The persisted per-frame plugin-data slot, seen through the
serialization boundary: `empty` models the falsy `''` (unset or cleared),
`ser c` a payload that `JSON.parse` deserializes to `c`, and `corrupt` a
non-empty payload on which `JSON.parse` throws. -/
inductive Tier2Slot where
  | empty
  | ser (c : CachedAnalysis)
  | corrupt
deriving DecidableEq, Repr

/-- The mutable cache state: the tier-1 `analysisCache` map and every
frame's tier-2 plugin-data slot, both keyed by frame id. -/
structure CacheState where
  memory : List (String × CachedAnalysis)
  pluginData : List (String × Tier2Slot)
deriving DecidableEq, Repr

/-- `isExpired` from `code.ts`: `(Date.now() - timestamp) > CACHE_DURATION`,
with the current time passed explicitly. -/
def isExpired (now timestamp : ℤ) : Bool := now - timestamp > CACHE_DURATION

/-- `isCacheValid` from `code.ts`: not expired, same plugin version, and
the frame's freshly recomputed content hash equals the stored one. -/
def isCacheValid (now : ℤ) (frame : SceneNode) (cached : CachedAnalysis) : Bool :=
  if isExpired now cached.timestamp then false
  else if cached.version ≠ PLUGIN_VERSION then false
  else if generateContentHash frame ≠ cached.contentHash then false
  else true

/-- `clearFrameCache` from `code.ts`: delete the tier-1 entry and write
`''` to the tier-2 slot. -/
def clearFrameCache (frame : SceneNode) (st : CacheState) : CacheState :=
  { memory := removeAssoc st.memory frame.nodeId
    pluginData := setAssoc st.pluginData frame.nodeId .empty }

/-- `setCachedAnalysis` from `code.ts`: build a fresh entry (current time,
current version, freshly computed hash) and write it to both tiers
synchronously. -/
def setCachedAnalysis (now : ℤ) (frame : SceneNode)
    (results : List AccessibilityIssue) (st : CacheState) : CacheState :=
  let cached : CachedAnalysis :=
    ⟨now, PLUGIN_VERSION, generateContentHash frame, results⟩
  { memory := setAssoc st.memory frame.nodeId cached
    pluginData := setAssoc st.pluginData frame.nodeId (.ser cached) }

/-- `getCachedAnalysis` from `code.ts`: tier-1 lookup; on miss, read the
tier-2 slot — an empty slot is skipped, a corrupt payload is caught and
the function returns null immediately (without touching either tier), a
parsed payload backfills tier 1.  A found entry is validated; an invalid
entry is evicted from both tiers and null returned. -/
def getCachedAnalysis (now : ℤ) (frame : SceneNode) (st : CacheState) :
    Option CachedAnalysis × CacheState :=
  let found : Option (CachedAnalysis × CacheState) :=
    match lookupAssoc st.memory frame.nodeId with
    | some cached => some (cached, st)
    | none =>
      match lookupAssoc st.pluginData frame.nodeId with
      | some (.ser cached) =>
        some (cached, { st with memory := setAssoc st.memory frame.nodeId cached })
      | _ => none
  match found with
  | none => (none, st)
  | some (cached, st1) =>
    if isCacheValid now frame cached then (some cached, st1)
    else (none, clearFrameCache frame st1)

/-- `getCacheAge` from `code.ts`, with the current time explicit
(`Math.floor` on nonnegative JS division is integer floor division). -/
def getCacheAge (now timestamp : ℤ) : String :=
  let ageMinutes := Int.fdiv (now - timestamp) 60000
  let ageHours := Int.fdiv ageMinutes 60
  let ageDays := Int.fdiv ageHours 24
  if ageDays > 0 then ⟨natDec ageDays.natAbs⟩ ++ "d ago"
  else if ageHours > 0 then ⟨natDec ageHours.natAbs⟩ ++ "h ago"
  else if ageMinutes > 0 then ⟨natDec ageMinutes.natAbs⟩ ++ "m ago"
  else "just now"

/-! ### The `analyze` message handler (Cache Coordinator request path) -/

/-- Observable side effects of one `analyze` request, in program order.
`driverRun` is the `analyzeFrame` rule evaluation (the Analysis Driver),
`aiFetch` the optional DeepSeek enhancement request, `localCacheWrite` a
`setCachedAnalysis` call, and the two remote events belong to the
Remote History Client operations. -/
inductive CoordEvent where
  | driverRun
  | aiFetch
  | localCacheWrite
  | remoteWriteAnalysis
  | resolveChanges
deriving DecidableEq, Repr

/-- The message the handler posts back for an `analyze` request. -/
inductive AnalyzeResponse where
  | error (message : String)
  | complete (issues : List IssueGroup) (totalIssues : Nat) (fromCache : Bool)
      (cacheAge : Option String)
deriving DecidableEq, Repr

/-- Result of one `analyze` request: the posted response, the cache state
afterwards, and the effect trace. -/
structure AnalyzeOutcome where
  response : AnalyzeResponse
  state : CacheState
  events : List CoordEvent
deriving DecidableEq, Repr

/-- The `analyze` branch of `figma.ui.onmessage` from `code.ts`.
The Analysis Driver (`analyzeFrame` filling `currentIssues`) is the
external collaborator and is passed as its outcome: a thrown error or the
produced issue list; the optional AI enhancement (`msg.useAI` with an API
key) is likewise passed as its issue-rewriting outcome.  If `forceReanalyze`
is false a valid cached entry is served (grouped, `fromCache: true`, with
its age) and the request ends; otherwise a fresh run caches and returns the
new issues (`fromCache: false`), and a thrown driver error is caught and
posted as `'Analysis failed: ' + error`.  Overlay and progress messages are
presentation effects outside the embedded surface. -/
def handleAnalyze (now : ℤ) (selectedFrame : Option SceneNode)
    (forceReanalyze useAI : Bool)
    (enhance : List AccessibilityIssue → List AccessibilityIssue)
    (driver : Except String (List AccessibilityIssue))
    (st : CacheState) : AnalyzeOutcome :=
  match selectedFrame with
  | none => ⟨.error "Please select a frame first", st, []⟩
  | some frame =>
    let cacheTry : Option CachedAnalysis × CacheState :=
      if forceReanalyze then (none, st) else getCachedAnalysis now frame st
    match cacheTry with
    | (some cached, st1) =>
      ⟨.complete (groupIssuesByElement cached.results) cached.results.length
          true (some (getCacheAge now cached.timestamp)),
        st1, []⟩
    | (none, st1) =>
      match driver with
      | .error e => ⟨.error ("Analysis failed: " ++ e), st1, [.driverRun]⟩
      | .ok issues =>
        let issues1 := if useAI then enhance issues else issues
        let st2 := setCachedAnalysis now frame issues1 st1
        ⟨.complete (groupIssuesByElement issues1) issues1.length false none,
          st2,
          [.driverRun] ++ (if useAI then [.aiFetch] else []) ++ [.localCacheWrite]⟩

/-! ### Remote history store (`supabase-client.ts` + SQL migration) -/

/-- One row of `frame_changes` (`detect_frame_change` inserts with
`is_resolved` defaulted to `false`). -/
structure ChangeRecord where
  frameId : String
  previousHash : String
  currentHash : String
  isResolved : Bool
deriving DecidableEq, Repr

/-- One row of `frame_analyses` as `saveAnalysis` posts it. -/
structure AnalysisRow where
  frameId : String
  frameName : String
  userId : String
  contentHash : String
  totalIssues : Nat
deriving DecidableEq, Repr

/-- The remote store's state: the append-only `frame_analyses` table and
the `frame_changes` table. -/
structure RemoteState where
  analyses : List AnalysisRow
  changes : List ChangeRecord
deriving DecidableEq, Repr

/-- The `detect_frame_change` SQL function (which
`SupabaseClient.detectFrameChange` forwards to): compare the two hashes
with plain string inequality; on difference insert one `frame_changes`
row (unresolved by column default) and return true, else insert nothing
and return false. -/
def detectFrameChange (st : RemoteState) (frameId previousHash currentHash : String) :
    Bool × RemoteState :=
  let hasChanged : Bool := previousHash ≠ currentHash
  (hasChanged,
    if hasChanged then
      { st with changes := st.changes ++ [⟨frameId, previousHash, currentHash, false⟩] }
    else st)

/-- The `resolve_frame_changes` SQL function: mark every unresolved
`frame_changes` row of the frame resolved. -/
def resolveFrameChanges (st : RemoteState) (frameId : String) : RemoteState :=
  { st with
    changes := st.changes.map fun r =>
      if r.frameId = frameId ∧ r.isResolved = false then
        { r with isResolved := true }
      else r }

/-- `SupabaseClient.saveAnalysis`: POST one new `frame_analyses` row
(append, never update). -/
def saveAnalysis (st : RemoteState) (row : AnalysisRow) : RemoteState :=
  { st with analyses := st.analyses ++ [row] }

/-- Modelled from the spec: the fresh-analysis success path of the Cache
Coordinator with remote write-through.  The repository's documentation
(PERSISTENT_HISTORY_GUIDE, architecture notes) describes a `code.ts` that
wires `supabase-client.ts` into the analyze flow
(`savePersistentAnalysis` / `resolveFrameChanges` after `setCachedAnalysis`),
but that integrated coordinator is not among the shipped sources — the
shipped `code.ts` performs only the local write.  Per spec §4.4: on driver
success, write through to the Local Cache Store synchronously, then write
through to the Remote History Client (`writeAnalysis`), then — after a
successful write-through, never before — call `resolveChanges` for the
node.  A failed remote write skips resolution and leaves the local write
in place.  The local write is the source `setCachedAnalysis`, and the
remote operations are the source `saveAnalysis` / `resolveFrameChanges`
models above. -/
def coordinatorFreshSuccess (now : ℤ) (frame : SceneNode)
    (issues : List AccessibilityIssue) (userId : String)
    (st : CacheState) (remote : RemoteState) (remoteWriteOk : Bool) :
    CacheState × RemoteState × List CoordEvent :=
  let st' := setCachedAnalysis now frame issues st
  let row : AnalysisRow :=
    ⟨frame.nodeId, "", userId, generateContentHash frame, issues.length⟩
  if remoteWriteOk then
    let remote' := saveAnalysis remote row
    let remote'' := resolveFrameChanges remote' frame.nodeId
    (st', remote'', [.localCacheWrite, .remoteWriteAnalysis, .resolveChanges])
  else
    (st', remote, [.localCacheWrite, .remoteWriteAnalysis])

/-! ### Background-color lookup -/

/-- `getBackgroundColor` from `code.ts`, with the ancestor chain passed
explicitly, nearest first; `none` models an ancestor without a `fills`
property.  For each ancestor with a non-empty fills array the source
inspects only `fills[0]`: it returns its color when that first fill is
`SOLID` and otherwise moves on to the next ancestor; exhausting the chain
yields opaque white. -/
def getBackgroundColor : List (Option (List Paint)) → RGB
  | [] => ⟨1, 1, 1⟩
  | fills? :: rest =>
    match fills? with
    | some (.solid r g b :: _) => ⟨r, g, b⟩
    | _ => getBackgroundColor rest

/-- The first `SOLID` paint anywhere in a fills array, if any. -/
def firstSolidFill : List Paint → Option RGB
  | [] => none
  | .solid r g b :: _ => some ⟨r, g, b⟩
  | .nonSolid :: rest => firstSolidFill rest

/-- The background lookup as claim C9 words it: walk the ancestor chain,
return the first solid-filled ancestor's first solid fill, and white only
when no ancestor carries a solid fill at all. -/
def getBackgroundColorClaimed : List (Option (List Paint)) → RGB
  | [] => ⟨1, 1, 1⟩
  | fills? :: rest =>
    match fills?.bind firstSolidFill with
    | some c => c
    | none => getBackgroundColorClaimed rest

/-- The color of an ancestor's first fill when that first fill is solid
(the only case in which the source's loop stops at this ancestor). -/
def headSolidColor (fills? : Option (List Paint)) : Option RGB :=
  match fills? with
  | some (.solid r g b :: _) => some ⟨r, g, b⟩
  | _ => none

/-! ### A decoder for the JSON escaping, used to prove the serialized
fingerprint injective in its text component -/

/-- Inverse of the two-character JSON escapes. -/
def unescChar (e : Char) : Char :=
  if e = 'b' then '\x08'
  else if e = 't' then '\t'
  else if e = 'n' then '\n'
  else if e = 'f' then '\x0c'
  else if e = 'r' then '\r'
  else e

/-- Decoder of a JSON-escaped character stream; on streams of the form
`escAll s ++ rest` it recovers `s ++ unesc rest`. -/
def unesc : List Char → List Char
  | [] => []
  | c :: rest =>
    if c = '\\' then
      match rest with
      | [] => []
      | e :: rest' =>
        if e = 'u' then
          match rest' with
          | a :: b :: c2 :: d :: rest'' =>
            Char.ofNat (hexVal a * 4096 + hexVal b * 256 + hexVal c2 * 16 + hexVal d)
              :: unesc rest''
          | _ => []
        else unescChar e :: unesc rest'
    else c :: unesc rest

/-- The leading part of `commaJoin (y :: zs)` after `y`: empty for a
final element, otherwise a comma and the rest. -/
def commaTail : List (List Char) → List Char
  | [] => []
  | x :: xs => ',' :: commaJoin (x :: xs)

/-- Every element followed by a comma — the shape of the elements
preceding a fixed element inside `commaJoin`. -/
def prefixJoin : List (List Char) → List Char
  | [] => []
  | x :: xs => x ++ ',' :: prefixJoin xs

/-! ### Replacing the text of one text leaf -/

/-- `TextMutation t tNew N NNew` holds when `NNew` is obtained from `N` by
replacing the `characters` of exactly one text leaf, whose old content is
`t` and new content `tNew`, leaving every other property of every node
(ids, names, fills, sibling order, structure) unchanged. -/
inductive TextMutation (t tNew : String) : SceneNode → SceneNode → Prop where
  | leaf (id name : String) (fills : List Paint) :
      TextMutation t tNew (.text id name t fills) (.text id name tNew fills)
  | child (id name : String) (fills : Option (List Paint))
      (pre post : List SceneNode) (c cNew : SceneNode) :
      TextMutation t tNew c cNew →
      TextMutation t tNew (.node id name fills (pre ++ c :: post))
        (.node id name fills (pre ++ cNew :: post))

/-! ### Concrete instances used by witnesses and counterexamples -/

/-- Flattened values of an insertion-ordered bucket map. -/
def bucketsVals {α : Type} : List (String × List α) → List α
  | [] => []
  | kv :: rest => kv.2 ++ bucketsVals rest

/-- A frame with two childless non-text children: 2 immediate children,
2 total descendants, no texts, no colors. -/
def frameTwoFlat : SceneNode :=
  .node "10:1" "A" none [.node "10:2" "R" (some []) [], .node "10:3" "R" (some []) []]

/-- A frame with one child which itself has one child: 1 immediate child
but likewise 2 total descendants, no texts, no colors. -/
def frameTwoNested : SceneNode :=
  .node "11:1" "B" none [.node "11:2" "M" (some []) [.node "11:3" "R" (some []) []]]

/-- A frame with a single text leaf reading `"Aa"`. -/
def frameTextAa : SceneNode := .node "12:1" "F" none [.text "12:2" "T" "Aa" []]

/-- The same frame after mutating the leaf's text to `"BB"` — a string
with the same multiply-by-31 rolling hash as `"Aa"`. -/
def frameTextBB : SceneNode := .node "12:1" "F" none [.text "12:2" "T" "BB" []]

/-- An empty frame used for witness states. -/
def frameEmpty : SceneNode := .node "1:1" "Frame" none []

/-- A second empty frame differing from `frameEmpty` in id, name and
fills, but with the same child count, texts and colors. -/
def frameEmptyOther : SceneNode := .node "2:2" "Other" (some [.nonSolid]) []

/-- A valid cache entry for `frameEmpty` created at time 0. -/
def entryEmpty : CachedAnalysis := ⟨0, "1.0.0", generateContentHash frameEmpty, []⟩

/-- A cache state holding `entryEmpty` in both tiers for `frameEmpty`. -/
def stateWithEntry : CacheState :=
  ⟨[("1:1", entryEmpty)], [("1:1", .ser entryEmpty)]⟩

/-- A cache state whose only tier-2 slot for `frameEmpty` is corrupt and
whose tier 1 is empty. -/
def stateCorrupt : CacheState := ⟨[], [("1:1", .corrupt)]⟩

/-- Ancestor chain whose nearest ancestor has a gradient first fill and a
solid red second fill, and whose next ancestor has a solid blue first
fill. -/
def ancestorsMixed : List (Option (List Paint)) :=
  [some [.nonSolid, .solid 1 0 0], some [.solid 0 0 1]]

/-- Issue named `a_b` on element id `c` — grouping key `a_b_c`. -/
def issueNameAB : AccessibilityIssue :=
  ⟨"c", "a_b", "Color Contrast", .fail, .AA, "3.00:1", "4.5:1", "s1"⟩

/-- Issue named `a` on element id `b_c` — the same grouping key `a_b_c`
despite different element identity. -/
def issueNameA : AccessibilityIssue :=
  ⟨"b_c", "a", "Line Height", .fail, .AA, "10.0px", "15.0px", "s2"⟩

/-! ## Helper lemmas -/

theorem handleAnalyze_cacheHit (now : ℤ) (frame : SceneNode) (st st' : CacheState)
    (c : CachedAnalysis) (useAI : Bool)
    (enhance : List AccessibilityIssue → List AccessibilityIssue)
    (driver : Except String (List AccessibilityIssue))
    (h : getCachedAnalysis now frame st = (some c, st')) :
    handleAnalyze now (some frame) false useAI enhance driver st =
      ⟨.complete (groupIssuesByElement c.results) c.results.length true
          (some (getCacheAge now c.timestamp)), st', []⟩ := by
  simp [handleAnalyze, h]

/-! ## Claim C1 — validity is exactly the three-way conjunction -/

/-- C1: `isCacheValid(frame, entry)` is true iff the entry's age is at
most the 7-day `CACHE_DURATION`, its `version` equals the current plugin
version, and its stored `contentHash` equals the frame's freshly
recomputed content hash. -/
theorem claim1_validate_iff (now : ℤ) (frame : SceneNode) (cached : CachedAnalysis) :
    isCacheValid now frame cached = true ↔
      now - cached.timestamp ≤ CACHE_DURATION ∧
        cached.version = PLUGIN_VERSION ∧
        cached.contentHash = generateContentHash frame := by
  unfold isCacheValid isExpired
  constructor
  · intro h
    by_cases h1 : now - cached.timestamp > CACHE_DURATION
    · simp [h1] at h
    · by_cases h2 : cached.version = PLUGIN_VERSION
      · by_cases h3 : generateContentHash frame = cached.contentHash
        · exact ⟨by omega, h2, h3.symm⟩
        · simp [h1, h2, h3] at h
      · simp [h1, h2] at h
  · rintro ⟨ha, hb, hc⟩
    have h1 : ¬(now - cached.timestamp > CACHE_DURATION) := by omega
    simp [h1, hb, hc]

/-! ## Claim C2 — a valid cached entry is served without driver or remote -/

/-- C2: when the local cache holds an entry that validates, a non-forced
`analyze` request returns the cached issues tagged `fromCache` with the
entry's age, and its effect trace is empty — the Analysis Driver is not
run and no remote operation happens. -/
theorem claim2_cache_hit_serves (now : ℤ) (frame : SceneNode) (st st' : CacheState)
    (c : CachedAnalysis) (useAI : Bool)
    (enhance : List AccessibilityIssue → List AccessibilityIssue)
    (driver : Except String (List AccessibilityIssue))
    (h : getCachedAnalysis now frame st = (some c, st')) :
    handleAnalyze now (some frame) false useAI enhance driver st =
      ⟨.complete (groupIssuesByElement c.results) c.results.length true
          (some (getCacheAge now c.timestamp)), st', []⟩ :=
  handleAnalyze_cacheHit now frame st st' c useAI enhance driver h

/-- Witness for C2 at a concrete valid entry. -/
theorem claim2_witness :
    handleAnalyze 0 (some frameEmpty) false false id (.ok []) stateWithEntry =
      ⟨.complete (groupIssuesByElement entryEmpty.results) entryEmpty.results.length true
          (some (getCacheAge 0 entryEmpty.timestamp)), stateWithEntry, []⟩ :=
  claim2_cache_hit_serves 0 frameEmpty stateWithEntry stateWithEntry entryEmpty false id
    (.ok []) (by decide)

/-! ## Claim C3 — ordering of local write, remote write-through, resolve -/

/-- C3 (spec-modelled): on the fresh-analysis success path the coordinator
applies the local `setCachedAnalysis` write, whose event precedes the
remote `writeAnalysis` event, and a `resolveChanges` event occurs only
after a successful write-through and later in the trace than it. -/
theorem claim3_write_through_order (now : ℤ) (frame : SceneNode)
    (issues : List AccessibilityIssue) (userId : String)
    (st : CacheState) (remote : RemoteState) (remoteWriteOk : Bool) :
    (coordinatorFreshSuccess now frame issues userId st remote remoteWriteOk).1
        = setCachedAnalysis now frame issues st
    ∧ ((coordinatorFreshSuccess now frame issues userId st remote remoteWriteOk).2.2).indexOf
          CoordEvent.localCacheWrite
        < ((coordinatorFreshSuccess now frame issues userId st remote remoteWriteOk).2.2).indexOf
          CoordEvent.remoteWriteAnalysis
    ∧ (CoordEvent.resolveChanges
          ∈ (coordinatorFreshSuccess now frame issues userId st remote remoteWriteOk).2.2 →
        remoteWriteOk = true
        ∧ ((coordinatorFreshSuccess now frame issues userId st remote remoteWriteOk).2.2).indexOf
              CoordEvent.remoteWriteAnalysis
            < ((coordinatorFreshSuccess now frame issues userId st remote remoteWriteOk).2.2).indexOf
              CoordEvent.resolveChanges) := by
  cases remoteWriteOk
  · refine ⟨rfl, ?_, fun h => absurd h ?_⟩
    · show List.indexOf CoordEvent.localCacheWrite
          [CoordEvent.localCacheWrite, CoordEvent.remoteWriteAnalysis]
        < List.indexOf CoordEvent.remoteWriteAnalysis
          [CoordEvent.localCacheWrite, CoordEvent.remoteWriteAnalysis]
      decide
    · show CoordEvent.resolveChanges
        ∉ [CoordEvent.localCacheWrite, CoordEvent.remoteWriteAnalysis]
      decide
  · refine ⟨rfl, ?_, fun _ => ⟨rfl, ?_⟩⟩
    · show List.indexOf CoordEvent.localCacheWrite
          [CoordEvent.localCacheWrite, CoordEvent.remoteWriteAnalysis,
            CoordEvent.resolveChanges]
        < List.indexOf CoordEvent.remoteWriteAnalysis
          [CoordEvent.localCacheWrite, CoordEvent.remoteWriteAnalysis,
            CoordEvent.resolveChanges]
      decide
    · show List.indexOf CoordEvent.remoteWriteAnalysis
          [CoordEvent.localCacheWrite, CoordEvent.remoteWriteAnalysis,
            CoordEvent.resolveChanges]
        < List.indexOf CoordEvent.resolveChanges
          [CoordEvent.localCacheWrite, CoordEvent.remoteWriteAnalysis,
            CoordEvent.resolveChanges]
      decide

/-- Witness for C3 at a concrete successful write-through. -/
theorem claim3_witness :
    (coordinatorFreshSuccess 0 frameEmpty [] "user" ⟨[], []⟩ ⟨[], []⟩ true).2.2.indexOf
        CoordEvent.remoteWriteAnalysis
      < (coordinatorFreshSuccess 0 frameEmpty [] "user" ⟨[], []⟩ ⟨[], []⟩ true).2.2.indexOf
        CoordEvent.resolveChanges :=
  ((claim3_write_through_order 0 frameEmpty [] "user" ⟨[], []⟩ ⟨[], []⟩ true).2.2
    (by decide)).2

/-! ## Claim C6 — corrupt tier-2 payload: absent and non-fatal, but NOT
evicted -/

/-- C6 counterexample: with an empty tier 1 and a corrupt tier-2 payload,
`getCachedAnalysis` returns absent and leaves the state untouched — in
particular the corrupt slot is still there, not evicted to the empty
slot the claim's eviction would produce. -/
theorem claim6_counterexample :
    (getCachedAnalysis 5 frameEmpty stateCorrupt).1 = none
    ∧ (getCachedAnalysis 5 frameEmpty stateCorrupt).2 = stateCorrupt
    ∧ lookupAssoc (getCachedAnalysis 5 frameEmpty stateCorrupt).2.pluginData "1:1"
        = some .corrupt
    ∧ lookupAssoc (getCachedAnalysis 5 frameEmpty stateCorrupt).2.pluginData "1:1"
        ≠ some .empty := by
  decide

/-- C6 amended: when tier 1 misses and the tier-2 payload fails to
deserialize, `get` returns absent and the failure is swallowed (the
function returns normally), but the corrupt entry is left in place —
the state, including the corrupt slot, is unchanged. -/
theorem claim6_amended (now : ℤ) (frame : SceneNode) (st : CacheState)
    (h1 : lookupAssoc st.memory frame.nodeId = none)
    (h2 : lookupAssoc st.pluginData frame.nodeId = some .corrupt) :
    getCachedAnalysis now frame st = (none, st) := by
  simp [getCachedAnalysis, h1, h2]

/-- Witness for the amended C6 at a concrete corrupt state. -/
theorem claim6_witness :
    getCachedAnalysis 7 frameEmpty stateCorrupt = (none, stateCorrupt) :=
  claim6_amended 7 frameEmpty stateCorrupt (by decide) (by decide)

/-! ## Claim C7 — detect_frame_change semantics -/

/-- C7: `detect_frame_change` returns true exactly when the two hashes
differ as plain strings; on difference it appends exactly one new
unresolved `frame_changes` row (and nothing else), and on equality it
leaves the remote state unchanged. -/
theorem claim7_detect_change (st : RemoteState) (frameId prev curr : String) :
    ((detectFrameChange st frameId prev curr).1 = true ↔ prev ≠ curr)
    ∧ (prev ≠ curr →
        (detectFrameChange st frameId prev curr).2.changes
            = st.changes ++ [⟨frameId, prev, curr, false⟩]
        ∧ (detectFrameChange st frameId prev curr).2.analyses = st.analyses)
    ∧ (prev = curr → (detectFrameChange st frameId prev curr).2 = st) := by
  unfold detectFrameChange
  by_cases h : prev = curr <;> simp [h]

/-- Witness for C7 at concrete differing and equal hashes. -/
theorem claim7_witness :
    (detectFrameChange ⟨[], []⟩ "1:2" "h1" "h2").2.changes
        = [⟨"1:2", "h1", "h2", false⟩]
    ∧ (detectFrameChange ⟨[], []⟩ "1:2" "h1" "h1").2 = (⟨[], []⟩ : RemoteState) :=
  ⟨((claim7_detect_change ⟨[], []⟩ "1:2" "h1" "h2").2.1 (by decide)).1,
    (claim7_detect_change ⟨[], []⟩ "1:2" "h1" "h1").2.2 rfl⟩

/-! ## Claim C8 — driver failure: reported, no cache write, prior valid
entry still served -/

/-- C8: when the Analysis Driver throws, the request reports
`Analysis failed`, a forced request leaves the cache state exactly as it
was, no request with a failing driver ever performs a local cache write,
and a prior valid entry is still served (without the driver) by the next
non-forced request. -/
theorem claim8_driver_failure (now now2 : ℤ) (frame : SceneNode)
    (st st2 : CacheState) (c : CachedAnalysis) (e : String) (useAI useAI2 : Bool)
    (enhance enhance2 : List AccessibilityIssue → List AccessibilityIssue)
    (driver2 : Except String (List AccessibilityIssue))
    (h : getCachedAnalysis now2 frame st = (some c, st2)) :
    (handleAnalyze now (some frame) true useAI enhance (.error e) st).response
        = .error ("Analysis failed: " ++ e)
    ∧ (handleAnalyze now (some frame) true useAI enhance (.error e) st).state = st
    ∧ (∀ force : Bool, CoordEvent.localCacheWrite
        ∉ (handleAnalyze now (some frame) force useAI enhance (.error e) st).events)
    ∧ handleAnalyze now2 (some frame) false useAI2 enhance2 driver2 st =
        ⟨.complete (groupIssuesByElement c.results) c.results.length true
            (some (getCacheAge now2 c.timestamp)), st2, []⟩ := by
  refine ⟨by simp [handleAnalyze], by simp [handleAnalyze], ?_,
    handleAnalyze_cacheHit now2 frame st st2 c useAI2 enhance2 driver2 h⟩
  intro force
  cases force with
  | true => simp [handleAnalyze]
  | false =>
    rcases hg : getCachedAnalysis now frame st with ⟨found, st1⟩
    cases found <;> simp [handleAnalyze, hg]

/-- Witness for C8 at a concrete failing request over a valid entry. -/
theorem claim8_witness :
    (handleAnalyze 3 (some frameEmpty) true false id (.error "boom") stateWithEntry).response
        = .error ("Analysis failed: " ++ "boom")
    ∧ (handleAnalyze 3 (some frameEmpty) true false id
          (.error "boom") stateWithEntry).state = stateWithEntry
    ∧ handleAnalyze 0 (some frameEmpty) false false id (.ok []) stateWithEntry =
        ⟨.complete (groupIssuesByElement entryEmpty.results) entryEmpty.results.length true
            (some (getCacheAge 0 entryEmpty.timestamp)), stateWithEntry, []⟩ :=
  ⟨(claim8_driver_failure 3 0 frameEmpty stateWithEntry stateWithEntry entryEmpty "boom"
      false false id id (.ok []) (by decide)).1,
    (claim8_driver_failure 3 0 frameEmpty stateWithEntry stateWithEntry entryEmpty "boom"
      false false id id (.ok []) (by decide)).2.1,
    (claim8_driver_failure 3 0 frameEmpty stateWithEntry stateWithEntry entryEmpty "boom"
      false false id id (.ok []) (by decide)).2.2.2⟩

/-! ## Claim C9 — the background lookup inspects only each ancestor's
first fill -/

/-- C9 counterexample: for a node whose nearest ancestor has a gradient
first fill and a solid red second fill (and a farther ancestor with a
solid blue first fill), the source skips the nearest ancestor entirely
and returns blue, while the claim's "first ancestor's first solid fill"
is red. -/
theorem claim9_counterexample :
    getBackgroundColor ancestorsMixed = ⟨0, 0, 1⟩
    ∧ getBackgroundColorClaimed ancestorsMixed = ⟨1, 0, 0⟩
    ∧ getBackgroundColor ancestorsMixed ≠ getBackgroundColorClaimed ancestorsMixed := by
  decide

/-- C9 amended: the lookup returns the color of the first ancestor whose
fills array is non-empty with a `SOLID` first entry — later solid fills of
an ancestor are never consulted — and opaque white when no ancestor
qualifies, so the contrast checks always receive a background. -/
theorem claim9_amended (ancestors : List (Option (List Paint))) :
    getBackgroundColor ancestors
      = (ancestors.findSome? headSolidColor).getD ⟨1, 1, 1⟩ := by
  induction ancestors with
  | nil => rfl
  | cons a rest ih =>
    rcases a with _ | fills
    · simpa [getBackgroundColor, headSolidColor, List.findSome?] using ih
    · rcases fills with _ | ⟨p, ps⟩
      · simpa [getBackgroundColor, headSolidColor, List.findSome?] using ih
      · rcases p with ⟨r, g, b⟩ | _
        · simp [getBackgroundColor, headSolidColor, List.findSome?]
        · simpa [getBackgroundColor, headSolidColor, List.findSome?] using ih

/-! ## Claim C10 — grouping is a partition, but keyed by the concatenated
string, whose collisions mix distinct elements into one group -/

theorem bucketsVals_pushAssoc {α : Type} (m : List (String × List α)) (k : String) (v : α) :
    (bucketsVals (pushAssoc m k v)).Perm (bucketsVals m ++ [v]) := by
  induction m with
  | nil => simp [pushAssoc, bucketsVals]
  | cons kv rest ih =>
    rcases kv with ⟨k', vs⟩
    by_cases h : k' = k
    · simp only [pushAssoc, h, if_pos rfl, bucketsVals, List.append_assoc]
      exact List.Perm.append_left vs
        (by simpa using @List.perm_append_comm _ [v] (bucketsVals rest))
    · simp only [pushAssoc, h, if_neg h, bucketsVals, List.append_assoc]
      exact List.Perm.append_left vs ih

theorem bucketsVals_foldl {β α : Type} (key : β → String) (val : β → α) :
    ∀ (items : List β) (m : List (String × List α)),
      (bucketsVals (items.foldl (fun acc b => pushAssoc acc (key b) (val b)) m)).Perm
        (bucketsVals m ++ items.map val) := by
  intro items
  induction items with
  | nil => intro m; simp
  | cons b items ih =>
    intro m
    simp only [List.foldl_cons, List.map_cons]
    refine (ih (pushAssoc m (key b) (val b))).trans ?_
    refine ((bucketsVals_pushAssoc m (key b) (val b)).append_right (items.map val)).trans ?_
    simp

theorem pushAssoc_bucketInv (m : List (String × List (AccessibilityIssue × Nat)))
    (k : String) (v : AccessibilityIssue × Nat) (hv : groupKey v.1 = k)
    (hm : ∀ kv ∈ m, kv.2 ≠ [] ∧ ∀ w ∈ kv.2, groupKey w.1 = kv.1) :
    ∀ kv ∈ pushAssoc m k v, kv.2 ≠ [] ∧ ∀ w ∈ kv.2, groupKey w.1 = kv.1 := by
  induction m with
  | nil =>
    intro kv hkv
    simp only [pushAssoc, List.mem_singleton] at hkv
    subst hkv
    exact ⟨by simp, by simpa using hv⟩
  | cons kv0 rest ih =>
    rcases kv0 with ⟨k0, vs0⟩
    intro kv hkv
    by_cases h : k0 = k
    · simp only [pushAssoc, if_pos h, List.mem_cons] at hkv
      rcases hkv with hkv | hkv
      · subst hkv
        have h0 := hm (k0, vs0) (List.mem_cons_self _ _)
        refine ⟨by simp, ?_⟩
        intro w hw
        simp only [List.mem_append, List.mem_singleton] at hw
        rcases hw with hw | hw
        · exact h0.2 w hw
        · subst hw; rw [hv, h]
      · exact hm kv (List.mem_cons_of_mem _ hkv)
    · simp only [pushAssoc, if_neg h, List.mem_cons] at hkv
      rcases hkv with hkv | hkv
      · subst hkv; exact hm (k0, vs0) (List.mem_cons_self _ _)
      · exact ih (fun kv' hkv' => hm kv' (List.mem_cons_of_mem _ hkv')) kv hkv

theorem foldl_bucketInv (items : List (Nat × AccessibilityIssue)) :
    ∀ (m : List (String × List (AccessibilityIssue × Nat))),
      (∀ kv ∈ m, kv.2 ≠ [] ∧ ∀ w ∈ kv.2, groupKey w.1 = kv.1) →
      ∀ kv ∈ items.foldl (fun m p => pushAssoc m (groupKey p.2) (p.2, p.1)) m,
        kv.2 ≠ [] ∧ ∀ w ∈ kv.2, groupKey w.1 = kv.1 := by
  induction items with
  | nil => intro m hm; simpa using hm
  | cons p items ih =>
    intro m hm
    simp only [List.foldl_cons]
    exact ih _ (pushAssoc_bucketInv m (groupKey p.2) (p.2, p.1) rfl hm)

theorem flatten_map_mkGroup (grouped : List (String × List (AccessibilityIssue × Nat))) :
    ((grouped.map mkGroup).map IssueGroup.issues).flatten = bucketsVals grouped := by
  induction grouped with
  | nil => rfl
  | cons kvs rest ih =>
    have hissues : (mkGroup kvs).issues = kvs.2 := by
      rcases kvs with ⟨k, vs⟩
      cases vs <;> rfl
    simp only [List.map_cons, List.flatten_cons, bucketsVals]
    rw [hissues, ih]

/-- C10 counterexample: two issues with different `elementName`/`elementId`
pairs but a colliding concatenated key (`a_b` + `c` versus `a` + `b_c`)
land in one group, whose reported element identity is the first member's —
so a group member's `elementName`/`elementId` need not equal the group's,
refuting the claimed pairwise-keyed partition. -/
theorem claim10_counterexample :
    groupIssuesByElement [issueNameAB, issueNameA]
        = [⟨"a_b", "c", [(issueNameAB, 0), (issueNameA, 1)]⟩]
    ∧ issueNameA.elementName ≠ "a_b"
    ∧ issueNameA.elementId ≠ "c" := by
  decide

/-- C10 amended: `groupIssuesByElement` partitions its input by the
concatenated key `elementName ++ "_" ++ elementId` (not by the pair):
the groups' members, concatenated, are a permutation of the input issues
paired with their indices; every member of a group agrees with the group's
reported identity on the concatenated key; and the group sizes sum to the
input length. -/
theorem claim10_amended (l : List AccessibilityIssue) :
    (((groupIssuesByElement l).map IssueGroup.issues).flatten).Perm
        (l.enum.map fun p => (p.2, p.1))
    ∧ (∀ g ∈ groupIssuesByElement l, ∀ m ∈ g.issues,
        m.1.elementName ++ "_" ++ m.1.elementId
          = g.elementName ++ "_" ++ g.elementId)
    ∧ ((groupIssuesByElement l).map fun g => g.issues.length).sum = l.length := by
  have hperm :
      (((groupIssuesByElement l).map IssueGroup.issues).flatten).Perm
        (l.enum.map fun p => (p.2, p.1)) := by
    rw [groupIssuesByElement, flatten_map_mkGroup]
    simpa using
      bucketsVals_foldl (fun p : Nat × AccessibilityIssue => groupKey p.2)
        (fun p => (p.2, p.1)) l.enum []
  refine ⟨hperm, ?_, ?_⟩
  · intro g hg m hm
    rw [groupIssuesByElement] at hg
    rcases List.mem_map.mp hg with ⟨kvs, hkvs, hmk⟩
    have hinv := foldl_bucketInv l.enum [] (by simp) kvs hkvs
    rcases kvs with ⟨k, vs⟩
    rcases hvs : vs with _ | ⟨v0, vs'⟩
    · exact absurd hvs hinv.1
    subst hmk
    rw [hvs] at hm ⊢
    have hm' : m ∈ vs := hvs ▸ hm
    have hkey := hinv.2 m hm'
    have hkey0 := hinv.2 v0 (by rw [hvs]; exact List.mem_cons_self _ _)
    simp only [mkGroup]
    calc m.1.elementName ++ "_" ++ m.1.elementId = groupKey m.1 := rfl
      _ = k := hkey
      _ = groupKey v0.1 := hkey0.symm
      _ = v0.1.elementName ++ "_" ++ v0.1.elementId := rfl
  · have hlen := hperm.length_eq
    rw [List.length_flatten] at hlen
    simpa [List.map_map, Function.comp] using hlen

/-- Witness for the amended C10, reading off the key agreement for a
concrete member of a concrete group. -/
theorem claim10_witness :
    issueNameA.elementName ++ "_" ++ issueNameA.elementId = "a_b" ++ "_" ++ "c" :=
  (claim10_amended [issueNameAB, issueNameA]).2.1
    ⟨"a_b", "c", [(issueNameAB, 0), (issueNameA, 1)]⟩ (by decide)
    (issueNameA, 1) (by decide)

/-! ## Claim C4 — the fingerprint is a function of (child count, texts,
colors), but of the IMMEDIATE child count, not the total descendant
count -/

/-- C4 counterexample: two frames with the same total descendant count
(2), the same (empty) text list and the same (empty) color list — all
three components of the claim's triple — but different fingerprints,
because `generateContentHash` reads `frame.children.length`, the
immediate child count, which is 2 for one frame and 1 for the other. -/
theorem claim4_counterexample :
    descendantCount frameTwoFlat = descendantCount frameTwoNested
    ∧ collectTextContent frameTwoFlat = collectTextContent frameTwoNested
    ∧ collectColors frameTwoFlat = collectColors frameTwoNested
    ∧ generateContentHash frameTwoFlat ≠ generateContentHash frameTwoNested := by
  decide

/-- C4 amended: `computeFingerprint` is a function of exactly the triple
(immediate child count of the node, text-leaf contents in depth-first
order, solid text fill colors in depth-first order): two nodes agreeing on
that triple — whatever their ids, names, own fills or deeper structure —
get the same fingerprint. -/
theorem claim4_amended (N M : SceneNode)
    (h1 : N.childrenList.length = M.childrenList.length)
    (h2 : collectTextContent N = collectTextContent M)
    (h3 : collectColors N = collectColors M) :
    generateContentHash N = generateContentHash M := by
  unfold generateContentHash fingerprintInput
  rw [h1, h2, h3]

/-- Witness for the amended C4: two frames differing in id, name and own
fills but agreeing on the triple have equal fingerprints. -/
theorem claim4_witness :
    generateContentHash frameEmpty = generateContentHash frameEmptyOther :=
  claim4_amended frameEmpty frameEmptyOther rfl rfl rfl

/-! ## Claim C5 — text mutation changes the serialized summary, but the
32-bit hash can collide -/

theorem hexRound32 : ∀ n : Fin 32,
    hexVal '0' * 4096 + hexVal '0' * 256 + hexVal (hexDigitChar (n.val / 16)) * 16
      + hexVal (hexDigitChar (n.val % 16)) = n.val := by
  decide

theorem unesc_escChar (c : Char) (X : List Char) :
    unesc (escChar c ++ X) = c :: unesc X := by
  unfold escChar
  split_ifs with h1 h2 h3 h4 h5 h6 h7 h8
  · subst h1; rw [unesc.eq_def]; simp [unescChar]
  · subst h2; rw [unesc.eq_def]; simp [unescChar]
  · subst h3; rw [unesc.eq_def]; simp [unescChar]
  · subst h4; rw [unesc.eq_def]; simp [unescChar]
  · subst h5; rw [unesc.eq_def]; simp [unescChar]
  · subst h6; rw [unesc.eq_def]; simp [unescChar]
  · subst h7; rw [unesc.eq_def]; simp [unescChar]
  · show unesc ('\\' :: 'u' :: '0' :: '0' :: hexDigitChar (c.toNat / 16)
        :: hexDigitChar (c.toNat % 16) :: X) = c :: unesc X
    rw [unesc.eq_def]
    show Char.ofNat (hexVal '0' * 4096 + hexVal '0' * 256
        + hexVal (hexDigitChar (c.toNat / 16)) * 16
        + hexVal (hexDigitChar (c.toNat % 16))) :: unesc X = c :: unesc X
    rw [hexRound32 ⟨c.toNat, h8⟩, Char.ofNat_toNat]
  · rw [unesc.eq_def]
    simp [h2]

theorem unesc_escAll (s : List Char) (X : List Char) :
    unesc (escAll s ++ X) = s ++ unesc X := by
  induction s with
  | nil => simp [escAll]
  | cons c s ih =>
    show unesc ((escChar c ++ escAll s) ++ X) = (c :: s) ++ unesc X
    rw [List.append_assoc, unesc_escChar, ih]
    rfl

theorem encStrLit_inj {s t : List Char} (h : encStrLit s = encStrLit t) : s = t := by
  unfold encStrLit at h
  have h' : escAll s ++ ['"'] = escAll t ++ ['"'] := by
    simpa using h
  have h2 := congrArg unesc h'
  rw [unesc_escAll, unesc_escAll] at h2
  exact List.append_cancel_right h2

theorem commaJoin_cons (y : List Char) (zs : List (List Char)) :
    commaJoin (y :: zs) = y ++ commaTail zs := by
  cases zs <;> simp [commaJoin, commaTail]

theorem commaJoin_split (xs : List (List Char)) (y : List Char) (zs : List (List Char)) :
    commaJoin (xs ++ y :: zs) = prefixJoin xs ++ (y ++ commaTail zs) := by
  induction xs with
  | nil => simp [prefixJoin, commaJoin_cons]
  | cons x xs ih =>
    obtain ⟨a, as, ha⟩ : ∃ a as, xs ++ y :: zs = a :: as := by
      cases hxs : xs ++ y :: zs with
      | nil => exact absurd hxs (by simp)
      | cons a as => exact ⟨a, as, rfl⟩
    calc commaJoin ((x :: xs) ++ y :: zs) = commaJoin (x :: a :: as) := by rw [← ha]; rfl
      _ = x ++ ',' :: commaJoin (a :: as) := by simp [commaJoin]
      _ = x ++ ',' :: commaJoin (xs ++ y :: zs) := by rw [← ha]
      _ = x ++ ',' :: (prefixJoin xs ++ (y ++ commaTail zs)) := by rw [ih]
      _ = prefixJoin (x :: xs) ++ (y ++ commaTail zs) := by simp [prefixJoin]

theorem encStrArr_split (A B : List (List Char)) (x : List Char) :
    encStrArr (A ++ x :: B)
      = '[' :: (prefixJoin (A.map encStrLit)
          ++ (encStrLit x ++ (commaTail (B.map encStrLit) ++ [']']))) := by
  unfold encStrArr
  rw [List.map_append, List.map_cons, commaJoin_split]
  simp [List.append_assoc]

theorem encStrArr_replace_inj (A B : List (List Char)) {x y : List Char}
    (h : encStrArr (A ++ x :: B) = encStrArr (A ++ y :: B)) : x = y := by
  rw [encStrArr_split, encStrArr_split] at h
  have h1 : prefixJoin (A.map encStrLit)
        ++ (encStrLit x ++ (commaTail (B.map encStrLit) ++ [']']))
      = prefixJoin (A.map encStrLit)
        ++ (encStrLit y ++ (commaTail (B.map encStrLit) ++ [']'])) := by
    simpa using h
  have h2 := List.append_cancel_left h1
  have h3 := List.append_cancel_right h2
  exact encStrLit_inj h3

theorem collectTextContentList_append (xs ys : List SceneNode) :
    collectTextContentList (xs ++ ys)
      = collectTextContentList xs ++ collectTextContentList ys := by
  induction xs with
  | nil => rfl
  | cons c cs ih => simp [collectTextContentList, ih]

theorem collectColorsList_append (xs ys : List SceneNode) :
    collectColorsList (xs ++ ys)
      = collectColorsList xs ++ collectColorsList ys := by
  induction xs with
  | nil => rfl
  | cons c cs ih => simp [collectColorsList, ih]

theorem TextMutation.children_length {t tNew : String} {N NNew : SceneNode}
    (h : TextMutation t tNew N NNew) :
    N.childrenList.length = NNew.childrenList.length := by
  induction h with
  | leaf id name fills => rfl
  | child id name fills pre post c cNew hc ih => simp [SceneNode.childrenList]

theorem TextMutation.colors_eq {t tNew : String} {N NNew : SceneNode}
    (h : TextMutation t tNew N NNew) :
    collectColors N = collectColors NNew := by
  induction h with
  | leaf id name fills => rfl
  | child id name fills pre post c cNew hc ih =>
    simp [collectColors, collectColorsList_append, collectColorsList, ih]

theorem TextMutation.texts_decomp {t tNew : String} {N NNew : SceneNode}
    (h : TextMutation t tNew N NNew) :
    ∃ T1 T2, collectTextContent N = T1 ++ t :: T2
      ∧ collectTextContent NNew = T1 ++ tNew :: T2 := by
  induction h with
  | leaf id name fills => exact ⟨[], [], rfl, rfl⟩
  | child id name fills pre post c cNew hc ih =>
    obtain ⟨T1, T2, h1, h2⟩ := ih
    refine ⟨collectTextContentList pre ++ T1, T2 ++ collectTextContentList post, ?_, ?_⟩
    · simp [collectTextContent, collectTextContentList_append, collectTextContentList, h1]
    · simp [collectTextContent, collectTextContentList_append, collectTextContentList, h2]

theorem stringDataInj {s t : String} (h : s.data = t.data) : s = t :=
  congrArg String.mk h

theorem fingerprintInput_text_inj (N M : SceneNode) (t tM : String)
    (T1 T2 : List String)
    (hcc : N.childrenList.length = M.childrenList.length)
    (hcol : collectColors N = collectColors M)
    (ht : collectTextContent N = T1 ++ t :: T2)
    (htM : collectTextContent M = T1 ++ tM :: T2)
    (heq : fingerprintInput N = fingerprintInput M) : t = tM := by
  unfold fingerprintInput at heq
  rw [hcc, hcol, ht, htM, List.map_append, List.map_cons, List.map_append,
    List.map_cons, encStrArr_split, encStrArr_split] at heq
  simp only [List.append_assoc, List.cons_append, List.nil_append] at heq
  simp only [List.cons.injEq, eq_self_iff_true, true_and] at heq
  replace heq := List.append_cancel_left heq
  simp only [List.cons.injEq, eq_self_iff_true, true_and] at heq
  replace heq := List.append_cancel_left heq
  replace heq := List.append_cancel_right heq
  exact stringDataInj (encStrLit_inj heq)

/-- C5 counterexample: mutating the single text leaf of a frame from
`"Aa"` to `"BB"` — two strings on which the multiply-by-31 rolling hash
collides — leaves `computeFingerprint` unchanged, so the mutation does NOT
strictly change the fingerprint. -/
theorem claim5_counterexample :
    TextMutation "Aa" "BB" frameTextAa frameTextBB
    ∧ "Aa" ≠ "BB"
    ∧ generateContentHash frameTextAa = generateContentHash frameTextBB := by
  refine ⟨?_, by decide, by decide⟩
  exact TextMutation.child "12:1" "F" none [] [] _ _ (TextMutation.leaf "12:2" "T" [])

set_option maxHeartbeats 1000000 in
/-- C5 amended: mutating any text leaf's string content strictly changes
the serialized content summary (`JSON.stringify` of the fingerprint
object) that `computeFingerprint` hashes; the fingerprint itself coincides
exactly when `simpleHash` collides on the two distinct summaries, which is
possible for a 32-bit hash. -/
theorem claim5_amended (t tNew : String) (N NNew : SceneNode)
    (h : TextMutation t tNew N NNew) (hne : t ≠ tNew) :
    fingerprintInput N ≠ fingerprintInput NNew
    ∧ (generateContentHash N = generateContentHash NNew ↔
        simpleHash (fingerprintInput N) = simpleHash (fingerprintInput NNew)) := by
  constructor
  · intro heq
    obtain ⟨T1, T2, h1, h2⟩ := h.texts_decomp
    exact hne (fingerprintInput_text_inj N NNew t tNew T1 T2 h.children_length
      h.colors_eq h1 h2 heq)
  · unfold generateContentHash
    exact String.ext_iff

/-- Witness for the amended C5: on the colliding `"Aa"`/`"BB"` mutation,
the serialized summaries do differ even though the hashed fingerprints
coincide. -/
theorem claim5_witness :
    fingerprintInput frameTextAa ≠ fingerprintInput frameTextBB :=
  (claim5_amended "Aa" "BB" frameTextAa frameTextBB
    (TextMutation.child "12:1" "F" none [] [] _ _ (TextMutation.leaf "12:2" "T" []))
    (by decide)).1

end A11y

